import Mathlib

/-!
# Verification of the Webex partner-portal front-end core (`src/ui/app.js`)

Shallow embedding of the shared fetch/cache/error-handling core and the
device-table normalization helpers, together with theorems settling the
specification claims.

Conventions:
* JS `Map` objects are modelled as association lists with first-match
  lookup, cons insertion and filter deletion.
* Timestamps (`Date.now()`) are natural numbers of milliseconds.
* Promises are modelled by explicit request identifiers plus a settlement
  step; the synchronous body of `apiFetch` (cache probe, in-flight probe,
  in-flight registration) is one step, and the settlement of the network
  future (cache write + in-flight removal, which run with no interleaving
  point between them) is another.
* Template interpolation of a nonnegative integer (`${now()}`,
  `${res.status}`) is modelled by `natDecimal`, decimal rendering.
-/

/-- The ten decimal digit characters. -/
def digitChars : List Char := ['0','1','2','3','4','5','6','7','8','9']

/-- Digit character of `d` (only used with `d < 10`). -/
def digitCh (d : Nat) : Char :=
  match d with
  | 0 => '0' | 1 => '1' | 2 => '2' | 3 => '3' | 4 => '4'
  | 5 => '5' | 6 => '6' | 7 => '7' | 8 => '8' | _ => '9'

/-- Fuelled decimal-digit expansion (most significant digit first). -/
def natDigitsAux : Nat → Nat → List Char
  | 0, _ => []
  | fuel+1, n => if n < 10 then [digitCh n] else natDigitsAux fuel (n / 10) ++ [digitCh (n % 10)]

/-- Decimal digits of `n`, most significant first. -/
def natDigits (n : Nat) : List Char := natDigitsAux (n + 1) n

/-- Decimal rendering of a nonnegative integer, as JS template
interpolation produces for an integer value. -/
def natDecimal (n : Nat) : String := ⟨natDigits n⟩

/-- Numeric value of a digit character. -/
def digitVal (c : Char) : Nat :=
  if c = '0' then 0 else if c = '1' then 1 else if c = '2' then 2
  else if c = '3' then 3 else if c = '4' then 4 else if c = '5' then 5
  else if c = '6' then 6 else if c = '7' then 7 else if c = '8' then 8 else 9

/-- Value of a digit string, most significant digit first. -/
def digitsVal (l : List Char) : Nat := l.foldl (fun a c => 10 * a + digitVal c) 0

theorem natDigitsAux_fuel : ∀ f f' n, n < f → n < f' → natDigitsAux f n = natDigitsAux f' n := by
  intro f
  induction f with
  | zero => intro f' n h; omega
  | succ g ih =>
    intro f' n hf hf'
    cases f' with
    | zero => omega
    | succ g' =>
      simp only [natDigitsAux]
      by_cases h10 : n < 10
      · simp [h10]
      · have hpos : 0 < n := by omega
        have hdiv : n / 10 < n := Nat.div_lt_self hpos (by omega)
        simp only [h10, if_false]
        rw [ih g' (n / 10) (by omega) (by omega)]

theorem natDigits_def (n : Nat) :
    natDigits n = if n < 10 then [digitCh n] else natDigits (n / 10) ++ [digitCh (n % 10)] := by
  show natDigitsAux (n + 1) n = _
  simp only [natDigitsAux]
  by_cases h10 : n < 10
  · simp [h10]
  · have hpos : 0 < n := by omega
    have hdiv : n / 10 < n := Nat.div_lt_self hpos (by omega)
    simp only [h10, if_false]
    rw [natDigitsAux_fuel n (n / 10 + 1) (n / 10) (by omega) (by omega)]
    rfl

theorem digitVal_digitCh (d : Nat) (h : d < 10) : digitVal (digitCh d) = d := by
  interval_cases d <;> decide

theorem digitsVal_append_digit (l : List Char) (c : Char) :
    digitsVal (l ++ [c]) = 10 * digitsVal l + digitVal c := by
  simp [digitsVal, List.foldl_append]

theorem digitsVal_natDigits (n : Nat) : digitsVal (natDigits n) = n := by
  induction n using Nat.strong_induction_on with
  | _ n ih =>
    rw [natDigits_def]
    by_cases h10 : n < 10
    · simp [h10, digitsVal, digitVal_digitCh n h10]
    · have hpos : 0 < n := by omega
      have hdiv : n / 10 < n := Nat.div_lt_self hpos (by omega)
      simp only [h10, if_false]
      rw [digitsVal_append_digit, ih (n / 10) hdiv,
        digitVal_digitCh (n % 10) (Nat.mod_lt _ (by omega))]
      omega

theorem natDigits_injective {m n : Nat} (h : natDigits m = natDigits n) : m = n := by
  have := digitsVal_natDigits m
  rw [h, digitsVal_natDigits] at this
  omega

theorem digitCh_mem (d : Nat) : digitCh d ∈ digitChars := by
  rcases d with _|_|_|_|_|_|_|_|_|d
  all_goals first
  | decide
  | (show '9' ∈ digitChars; decide)

theorem natDigits_subset (n : Nat) : ∀ c ∈ natDigits n, c ∈ digitChars := by
  induction n using Nat.strong_induction_on with
  | _ n ih =>
    rw [natDigits_def]
    by_cases h10 : n < 10
    · simp only [h10, if_true, List.mem_singleton]
      rintro c rfl
      exact digitCh_mem n
    · have hpos : 0 < n := by omega
      have hdiv : n / 10 < n := Nat.div_lt_self hpos (by omega)
      simp only [h10, if_false, List.mem_append, List.mem_singleton]
      rintro c (hc | rfl)
      · exact ih (n / 10) hdiv c hc
      · exact digitCh_mem (n % 10)

theorem notMem_natDigits {c : Char} (hc : c ∉ digitChars) (n : Nat) : c ∉ natDigits n :=
  fun h => hc (natDigits_subset n c h)

theorem toLower_of_digit {c : Char} (hc : c ∈ digitChars) : Char.toLower c = c := by
  fin_cases hc <;> decide

theorem map_toLower_digits (l : List Char) (h : ∀ c ∈ l, c ∈ digitChars) :
    l.map Char.toLower = l := by
  induction l with
  | nil => rfl
  | cons c t iht =>
    simp only [List.map_cons]
    rw [toLower_of_digit (h c (by simp)), iht (fun x hx => h x (by simp [hx]))]

/-- Unique splitting at a character that occurs in neither left part. -/
theorem append_cons_eq_unique {x x' y y' : List Char} {c : Char}
    (hx : c ∉ x) (hx' : c ∉ x') (h : x ++ c :: y = x' ++ c :: y') : x = x' ∧ y = y' := by
  induction x generalizing x' with
  | nil =>
    cases x' with
    | nil => simpa using h
    | cons b t =>
      simp only [List.nil_append, List.cons_append, List.cons.injEq] at h
      exact absurd (h.1 ▸ List.mem_cons_self b t) hx'
  | cons a t ih =>
    cases x' with
    | nil =>
      simp only [List.cons_append, List.nil_append, List.cons.injEq] at h
      exact absurd (h.1 ▸ List.mem_cons_self a t) hx
    | cons b t' =>
      simp only [List.cons_append, List.cons.injEq] at h
      obtain ⟨rfl, h2⟩ := h
      have hxt : c ∉ t := fun hm => hx (List.mem_cons_of_mem _ hm)
      have hxt' : c ∉ t' := fun hm => hx' (List.mem_cons_of_mem _ hm)
      obtain ⟨rfl, hy⟩ := ih hxt hxt' h2
      exact ⟨rfl, hy⟩

/-- JS `String.prototype.includes`: substring test. -/
def containsSubstr (s pat : String) : Bool := decide (pat.data <:+: s.data)

theorem containsSubstr_iff {s pat : String} : containsSubstr s pat = true ↔ pat.data <:+: s.data := by
  simp [containsSubstr]

/-- JS `String.prototype.toLowerCase` (ASCII behaviour). -/
def strToLower (s : String) : String := ⟨s.data.map Char.toLower⟩

/-- JS `String.prototype.startsWith`. -/
def strStartsWith (s pfx : String) : Bool := pfx.data.isPrefixOf s.data

/-! ## The JS `Map` model: association lists, first-match lookup. -/

/-- `Map.prototype.get` (with `undefined` as `none`). -/
def mget {β : Type} (m : List (String × β)) (k : String) : Option β :=
  match m with
  | [] => none
  | (k', v) :: t => if k' = k then some v else mget t k

/-- `Map.prototype.set`: the new binding shadows any older one. -/
def mset {β : Type} (m : List (String × β)) (k : String) (v : β) : List (String × β) :=
  (k, v) :: m

/-- `Map.prototype.delete`. -/
def mdel {β : Type} (m : List (String × β)) (k : String) : List (String × β) :=
  match m with
  | [] => []
  | e :: t => if e.1 = k then mdel t k else e :: mdel t k

theorem mget_mset_self {β : Type} (m : List (String × β)) (k : String) (v : β) :
    mget (mset m k v) k = some v := by
  simp [mget, mset]

theorem mget_mdel_self {β : Type} (m : List (String × β)) (k : String) :
    mget (mdel m k) k = none := by
  induction m with
  | nil => rfl
  | cons e t ih =>
    by_cases h : e.1 = k
    · simpa [mdel, h] using ih
    · obtain ⟨k', v⟩ := e
      simp only at h
      simpa [mdel, mget, h] using ih

/-! ## `apiFetch`: cache probe, in-flight de-duplication, settlement. -/

/-- One entry of the module-level `cache` map: `{ value, expires }`. -/
structure CacheEntry (α : Type) where
  value : α
  expires : Nat

/-- The module-level mutable state: the `cache` map and the `inflight` map.
In-flight futures are identified by request identifiers. -/
structure ApiState (α : Type) where
  cache : List (String × CacheEntry α)
  inflight : List (String × Nat)

/-- What the synchronous phase of `apiFetch` returns to its caller. -/
inductive FetchAction (α : Type)
  | cachedValue (v : α)
  | joinInflight (rid : Nat)
  | startRequest (rid : Nat)

/-- The cache-miss tail of `apiFetch`: probe `inflight`, otherwise start a
new network request and record it under `cacheKey`. -/
def apiFetchMiss {α : Type} (st : ApiState α) (cacheKey : String) (freshId : Nat) :
    FetchAction α × ApiState α :=
  match mget st.inflight cacheKey with
  | some rid => (.joinInflight rid, st)
  | none => (.startRequest freshId, { st with inflight := mset st.inflight cacheKey freshId })

/-- Synchronous phase of `apiFetch`: return the cached value if its expiry
is strictly in the future, else return the recorded in-flight future if one
exists, else start (and record) a fresh request. `t` is `now()`. -/
def apiFetch {α : Type} (st : ApiState α) (cacheKey : String) (t : Nat) (freshId : Nat) :
    FetchAction α × ApiState α :=
  match mget st.cache cacheKey with
  | some e => if e.expires > t then (.cachedValue e.value, st) else apiFetchMiss st cacheKey freshId
  | none => apiFetchMiss st cacheKey freshId

/-- Settlement outcome of the network future. -/
inductive FetchOutcome (α : Type)
  | success (v : α)
  | failure

/-- Settlement of the future started by `apiFetch`: on success with
`ttl > 0` the value is stored with expiry `now() + ttl`; in every case the
`finally` block deletes the in-flight entry. -/
def settleRequest {α : Type} (st : ApiState α) (cacheKey : String) (ttl : Nat) (t : Nat)
    (out : FetchOutcome α) : ApiState α :=
  { cache :=
      match out with
      | .success v => if ttl > 0 then mset st.cache cacheKey ⟨v, t + ttl⟩ else st.cache
      | .failure => st.cache,
    inflight := mdel st.inflight cacheKey }

/-- The loop body of `clearCachePrefix`: delete every binding whose key
starts with `p`. -/
def clearEntries {β : Type} (m : List (String × β)) (p : String) : List (String × β) :=
  match m with
  | [] => []
  | e :: t => if strStartsWith e.1 p then clearEntries t p else e :: clearEntries t p

/-- `clearCachePrefix`: delete every cache key that starts with `p`. -/
def clearCachePrefix {α : Type} (st : ApiState α) (p : String) : ApiState α :=
  { st with cache := clearEntries st.cache p }

/-! ## Response classification inside the `apiFetch` request body. -/

/-- A settled `fetch` response: status, `content-type` header (with a
missing header read as `""`), body text, and the result of attempting to
parse the body as JSON (`none` when `res.json()` would throw). -/
structure HttpResponse (α : Type) where
  status : Nat
  contentType : String
  bodyText : String
  jsonBody : Option α

/-- `Response.ok`: status in the inclusive range 200–299. -/
def resOk {α : Type} (r : HttpResponse α) : Bool := decide (200 ≤ r.status ∧ r.status ≤ 299)

/-- Outcome of the request body: success, or one of the three throw sites
(the non-2xx throw, the non-JSON-content-type throw, the `res.json()`
failure), each carrying the data the corresponding JS error carries. -/
inductive ApiResult (α : Type)
  | ok (v : α)
  | httpError (status : Nat) (body : String) (message : String)
  | malformed (status : Nat) (body : String) (message : String)
  | parseError (message : String)

/-- The try-block of the `apiFetch` request body, applied to a settled
response: non-2xx statuses throw the `failed (status)` error carrying the
status and the body truncated to 300 characters; 2xx responses whose
`content-type` does not contain `application/json` throw the `Non-JSON
response` error with the same data; otherwise `res.json()` is returned, its
own failure modelled as `parseError` (the engine's `SyntaxError`, whose
message contains no parenthesised status). -/
def classifyResponse {α : Type} (path : String) (r : HttpResponse α) : ApiResult α :=
  if !(resOk r) then
    .httpError r.status (r.bodyText.take 300)
      ("API " ++ path ++ " failed (" ++ natDecimal r.status ++ ")")
  else if !(containsSubstr r.contentType "application/json") then
    .malformed r.status (r.bodyText.take 300) ("Non-JSON response from " ++ path)
  else
    match r.jsonBody with
    | some v => .ok v
    | none => .parseError "Unexpected token in JSON"

/-- `isNotFoundError`: the case-insensitive regex test
`/failed \(404\)/i` on `String(err?.message || err)`, i.e. on the error's
message. -/
def isNotFoundError (msg : String) : Bool := containsSubstr (strToLower msg) "failed (404)"

/-- Message of a failed `ApiResult` (the thrown error's `.message`). -/
def resultMessage {α : Type} : ApiResult α → Option String
  | .ok _ => none
  | .httpError _ _ m => some m
  | .malformed _ _ m => some m
  | .parseError m => some m

/-- `isNotFoundError` applied to the error a failed result rejects with
(`false` on a successful result, which rejects with nothing). -/
def resultIsNotFound {α : Type} (res : ApiResult α) : Bool :=
  match resultMessage res with
  | some m => isNotFoundError m
  | none => false

/-! ## `triggerReeval` cache keys. -/

/-- The cache key of the preferred POST path of `triggerReeval`,
`reeval:<key>:<now()>`. -/
def reevalKey (key : String) (t : Nat) : String :=
  "reeval:" ++ key ++ ":" ++ natDecimal t

/-- The cache key of the GET fallback path of `triggerReeval`,
`health_force:<key>:<now()>`. -/
def healthForceKey (key : String) (t : Nat) : String :=
  "health_force:" ++ key ++ ":" ++ natDecimal t

/-! ## Device-table normalization (`normalizeDeviceRow`, `guessDeviceRootCause`). -/

/-- JS `a || b` for a possibly-absent string `a` and string `b`: the empty
string is falsy and falls through. -/
def orElseStr : Option String → String → String
  | some s, d => if s = "" then d else s
  | none, d => d

/-- JS `a || b` for possibly-absent millisecond timestamps: `0` is falsy
and falls through. -/
def orElseTs : Option Int → Option Int → Option Int
  | some n, d => if n = 0 then d else some n
  | none, d => d

/-- A raw device record as consumed by `normalizeDeviceRow`: absent fields
are `none`. Date-valued fields (`lastSeen`, `lastActivityTime`,
`lastUpdated`) are modelled as already-parsed millisecond timestamps. -/
structure DeviceRecord where
  displayName : Option String := none
  name : Option String := none
  deviceName : Option String := none
  product : Option String := none
  model : Option String := none
  deviceModel : Option String := none
  connectionStatus : Option String := none
  status : Option String := none
  lastSeen : Option Int := none
  lastActivityTime : Option Int := none
  lastUpdated : Option Int := none
  locationName : Option String := none
  placeName : Option String := none
  location : Option String := none
  mac : Option String := none
  ipAddress : Option String := none

/-- The lowercased raw status `String(d.connectionStatus || d.status || "")
.toLowerCase()`. -/
def statusRawOf (d : DeviceRecord) : String :=
  strToLower (orElseStr d.connectionStatus (orElseStr d.status ""))

/-- The normalized status cascade of `normalizeDeviceRow`. -/
def normalizeStatus (statusRaw : String) : String :=
  if containsSubstr statusRaw "offline" || containsSubstr statusRaw "disconnected" then "offline"
  else if containsSubstr statusRaw "online" || containsSubstr statusRaw "connected" then "online"
  else if statusRaw = "" then "unknown" else statusRaw

/-- The coalesced last-seen value `d.lastSeen || d.lastActivityTime ||
d.lastUpdated || null`. -/
def lastSeenOf (d : DeviceRecord) : Option Int :=
  orElseTs d.lastSeen (orElseTs d.lastActivityTime (orElseTs d.lastUpdated none))

/-- `guessDeviceRootCause`: `nowMs` is `Date.now()`. A `lastSeen` of `0` is
falsy in JS and takes the `!lastSeen` branch. `hours` is the exact age in
hours; since the model's timestamps are integers the `isFinite` guard
always holds. -/
def guessDeviceRootCause (status : String) (lastSeen : Option Int) (nowMs : Int) : String :=
  match lastSeen with
  | none => "Cloud inventory / registration drift"
  | some ts =>
    if ts = 0 then "Cloud inventory / registration drift"
    else
      let hours : ℚ := ((nowMs - ts : Int) : ℚ) / 3600000
      if status = "offline" then
        if hours > 48 then "Power / site outage likely" else "Network / power intermittent"
      else if status = "disconnected" then "LAN / network drop likely"
      else "—"

/-- The normalized row produced by `normalizeDeviceRow`. -/
structure DeviceRow where
  name : String
  model : String
  status : String
  statusClass : String
  lastSeen : Option Int
  location : String
  rootCause : String
  searchable : String

/-- `normalizeDeviceRow` (`nowMs` is `Date.now()` inside the root-cause
heuristic). -/
def normalizeDeviceRow (d : DeviceRecord) (nowMs : Int) : DeviceRow :=
  let name := orElseStr d.displayName (orElseStr d.name (orElseStr d.deviceName "—"))
  let model := orElseStr d.product (orElseStr d.model (orElseStr d.deviceModel "—"))
  let statusRaw := statusRawOf d
  let status := normalizeStatus statusRaw
  let lastSeen := lastSeenOf d
  let location := orElseStr d.locationName (orElseStr d.placeName (orElseStr d.location "—"))
  let rootCause := guessDeviceRootCause status lastSeen nowMs
  let statusClass :=
    if status = "offline" then "health-red"
    else if status = "online" then "health-green"
    else "health-unknown"
  let searchable := strToLower
    (name ++ " " ++ model ++ " " ++ status ++ " " ++ location ++ " " ++
      orElseStr d.mac "" ++ " " ++ orElseStr d.ipAddress "")
  { name := name, model := model, status := status, statusClass := statusClass,
    lastSeen := lastSeen, location := location, rootCause := rootCause,
    searchable := searchable }

/-! ## `escapeHtml`. -/

/-- A JS value as passed to `escapeHtml`. Numbers are modelled as
integers. -/
inductive JSVal
  | vNull
  | vUndefined
  | vBool (b : Bool)
  | vNum (n : Int)
  | vStr (s : String)

/-- JS truthiness of a `JSVal`. -/
def truthy : JSVal → Bool
  | .vNull => false
  | .vUndefined => false
  | .vBool b => b
  | .vNum n => decide (n ≠ 0)
  | .vStr s => decide (s ≠ "")

/-- Decimal rendering of an integer. -/
def intDecimal (n : Int) : String :=
  if n < 0 then "-" ++ natDecimal n.natAbs else natDecimal n.natAbs

/-- JS `String(v)` conversion. -/
def jsValToString : JSVal → String
  | .vNull => "null"
  | .vUndefined => "undefined"
  | .vBool true => "true"
  | .vBool false => "false"
  | .vNum n => intDecimal n
  | .vStr s => s

/-- `String.prototype.replaceAll` with a one-character pattern, on
character lists. -/
def replaceAllCh (pat : Char) (rep : List Char) : List Char → List Char
  | [] => []
  | c :: t => if c = pat then rep ++ replaceAllCh pat rep t else c :: replaceAllCh pat rep t

/-- `String.prototype.replaceAll` with a one-character pattern. -/
def replaceAllStr (s : String) (pat : Char) (rep : String) : String :=
  ⟨replaceAllCh pat rep.data s.data⟩

/-- `escapeHtml`: `String(s || "")` then the five `replaceAll` steps, `&`
first. -/
def escapeHtml (v : JSVal) : String :=
  let s := if truthy v then jsValToString v else ""
  replaceAllStr (replaceAllStr (replaceAllStr (replaceAllStr
    (replaceAllStr s '&' "&amp;") '<' "&lt;") '>' "&gt;") '"' "&quot;") '\'' "&#039;"

/-! ## Helper lemmas. -/

theorem mget_mset_ne {β : Type} (m : List (String × β)) {k k' : String} (v : β) (h : k' ≠ k) :
    mget (mset m k' v) k = mget m k := by
  simp [mget, mset, h]

theorem mget_mdel_ne {β : Type} (m : List (String × β)) {k k' : String} (h : k' ≠ k) :
    mget (mdel m k') k = mget m k := by
  induction m with
  | nil => rfl
  | cons e t ih =>
    obtain ⟨ke, ve⟩ := e
    by_cases hk : ke = k'
    · subst hk
      have hne : ¬(ke = k) := h
      simp [mdel, mget, hne, ih]
    · by_cases hkk : ke = k
      · subst hkk
        simp [mdel, mget, hk]
      · simp [mdel, mget, hk, hkk, ih]

theorem replaceAllCh_not_mem_self (pat : Char) (rep : List Char) (hrep : pat ∉ rep) :
    ∀ l : List Char, pat ∉ replaceAllCh pat rep l := by
  intro l
  induction l with
  | nil => simp [replaceAllCh]
  | cons c t ih =>
    by_cases hc : c = pat
    · simp only [replaceAllCh, hc, if_true, List.mem_append]
      rintro (h | h)
      · exact hrep h
      · exact ih h
    · simp only [replaceAllCh, hc, if_false, List.mem_cons]
      rintro (h | h)
      · exact hc h.symm
      · exact ih h

theorem replaceAllCh_preserves_not_mem (c pat : Char) (rep : List Char)
    (hrep : c ∉ rep) : ∀ l : List Char, c ∉ l → c ∉ replaceAllCh pat rep l := by
  intro l
  induction l with
  | nil => simp [replaceAllCh]
  | cons a t ih =>
    intro hl
    have ha : c ≠ a := fun h => hl (h ▸ List.mem_cons_self a t)
    have ht : c ∉ t := fun h => hl (List.mem_cons_of_mem _ h)
    by_cases hap : a = pat
    · simp only [replaceAllCh, hap, if_true, List.mem_append]
      rintro (h | h)
      · exact hrep h
      · exact ih ht h
    · simp only [replaceAllCh, hap, if_false, List.mem_cons]
      rintro (h | h)
      · exact ha h
      · exact ih ht h

/-- Core string fact behind `isNotFoundError`: in the lowercased message
`<pl> failed (<digits of s>)`, where `pl` contains no `'('`, the pattern
`failed (404)` occurs as a substring exactly when `s = 404`. -/
theorem notFound_msg_iff (pl : List Char) (s : Nat) (hp : '(' ∉ pl) :
    ("failed (404)".data <:+: pl ++ (" failed (".data ++ (natDigits s ++ [')']))) ↔ s = 404 := by
  have hQ : "failed (404)".data = ['f','a','i','l','e','d',' '] ++ '(' :: ['4','0','4',')'] := rfl
  have hM : " failed (".data = ' ' :: ['f','a','i','l','e','d',' '] ++ ['('] := rfl
  constructor
  · rintro ⟨u, v, huv⟩
    rw [hQ, hM] at huv
    have hu : '(' ∉ u := by
      intro hmem
      have hc := congrArg (List.count '(') huv
      have hDz : (natDigits s).count '(' = 0 :=
        List.count_eq_zero.mpr (notMem_natDigits (by decide) s)
      have hplz : pl.count '(' = 0 := List.count_eq_zero.mpr hp
      have huc : 0 < u.count '(' := List.count_pos_iff.mpr hmem
      have e1 : (['f','a','i','l','e','d',' '] : List Char).count '(' = 0 := by decide
      have e2 : (['(','4','0','4',')'] : List Char).count '(' = 1 := by decide
      have e3 : ([' ','f','a','i','l','e','d',' '] : List Char).count '(' = 0 := by decide
      have e4 : (['('] : List Char).count '(' = 1 := by decide
      have e5 : (([')'] : List Char)).count '(' = 0 := by decide
      simp only [List.count_append, e1, e2, e3, e4, e5, hDz, hplz] at hc
      omega
    have lhs_eq : u ++ (['f','a','i','l','e','d',' '] ++ ['(','4','0','4',')']) ++ v =
        (u ++ ['f','a','i','l','e','d',' ']) ++ '(' :: (['4','0','4'] ++ ')' :: v) := by
      simp
    have rhs_eq : pl ++ ([' ','f','a','i','l','e','d',' '] ++ ['('] ++ (natDigits s ++ [')'])) =
        (pl ++ [' ','f','a','i','l','e','d',' ']) ++ '(' :: (natDigits s ++ ')' :: []) := by
      simp
    have key := (lhs_eq.symm.trans huv).trans rhs_eq
    have hx : '(' ∉ u ++ ['f','a','i','l','e','d',' '] := by
      simp only [List.mem_append]
      rintro (h | h)
      · exact hu h
      · revert h; decide
    have hx' : '(' ∉ pl ++ [' ','f','a','i','l','e','d',' '] := by
      simp only [List.mem_append]
      rintro (h | h)
      · exact hp h
      · revert h; decide
    obtain ⟨-, h2⟩ := append_cons_eq_unique hx hx' key
    have hy : ')' ∉ (['4','0','4'] : List Char) := by decide
    have hy' : ')' ∉ natDigits s := notMem_natDigits (by decide) s
    obtain ⟨h3, -⟩ := append_cons_eq_unique hy hy' h2
    have h404 : natDigits 404 = ['4','0','4'] := by decide
    exact natDigits_injective (h3.symm.trans h404.symm)
  · rintro rfl
    refine ⟨pl ++ [' '], [], ?_⟩
    have hD : natDigits 404 = ['4','0','4'] := by decide
    rw [hQ, hM, hD]
    simp

/-! ## Claim theorems. -/

/-- C1: a call to `apiFetch` that finds an in-flight request for its key
(and no unexpired cache entry) returns that same pending future and leaves
the state unchanged; consequently, from a state with no in-flight request
and no fresh cache entry for the key, a first call starts exactly one
network request and any further call before settlement joins that same
request (so all concurrent callers share one underlying computation and
hence one result or one error). -/
theorem apiFetch_dedup {α : Type} (st : ApiState α) (key : String) (t t' fresh fresh' : Nat)
    (hstale : ∀ e, mget st.cache key = some e → e.expires ≤ t)
    (hstale' : ∀ e, mget st.cache key = some e → e.expires ≤ t') :
    (∀ rid, mget st.inflight key = some rid →
      apiFetch st key t fresh = (FetchAction.joinInflight rid, st)) ∧
    (mget st.inflight key = none →
      (apiFetch st key t fresh).1 = FetchAction.startRequest fresh ∧
      apiFetch (apiFetch st key t fresh).2 key t' fresh' =
        (FetchAction.joinInflight fresh, (apiFetch st key t fresh).2)) := by
  have hmiss : ∀ tt ff, (∀ e, mget st.cache key = some e → e.expires ≤ tt) →
      apiFetch st key tt ff = apiFetchMiss st key ff := by
    intro tt ff hs
    cases hc : mget st.cache key with
    | none => simp [apiFetch, hc]
    | some e =>
      have hle := hs e hc
      simp only [apiFetch, hc]
      rw [if_neg (by omega)]
  constructor
  · intro rid hin
    rw [hmiss t fresh hstale]
    simp [apiFetchMiss, hin]
  · intro hin
    rw [hmiss t fresh hstale]
    have h1 : apiFetchMiss st key fresh =
        (FetchAction.startRequest fresh, { st with inflight := mset st.inflight key fresh }) := by
      simp [apiFetchMiss, hin]
    rw [h1]
    refine ⟨rfl, ?_⟩
    have hc2 : ∀ e, mget ({ st with inflight := mset st.inflight key fresh } : ApiState α).cache key
        = some e → e.expires ≤ t' := hstale'
    cases hc : mget st.cache key with
    | none =>
      simp [apiFetch, hc, apiFetchMiss, mget_mset_self]
    | some e =>
      have hle := hstale' e hc
      simp only [apiFetch, hc]
      rw [if_neg (by omega)]
      simp [apiFetchMiss, mget_mset_self]

/-- Witness for C1: in a state whose in-flight map records request 7 for
key `"k"` and whose cache is empty, `apiFetch` joins request 7 and changes
nothing. -/
theorem apiFetch_dedup_witness :
    apiFetch (ApiState.mk [] [("k", 7)] : ApiState Nat) "k" 5 99 =
      (FetchAction.joinInflight 7, ApiState.mk [] [("k", 7)]) :=
  (apiFetch_dedup (ApiState.mk [] [("k", 7)]) "k" 5 5 99 99
    (fun e he => by simp [mget] at he) (fun e he => by simp [mget] at he)).1 7 (by rfl)

/-- C2: after a successful settlement at time `t0` with `ttl > 0`, a read
strictly before `t0 + ttl` returns the cached value with no state change
(hence no network call); a read at or after `t0 + ttl` treats the entry as
absent and starts a fresh network request; and the expired entry is still
physically present in the cache map afterwards — absence is decided by the
expiry check on read, not by deletion. -/
theorem apiFetch_ttl {α : Type} (st : ApiState α) (key : String) (v : α)
    (ttl t0 t1 t2 f1 f2 : Nat) (httl : 0 < ttl) (h1 : t1 < t0 + ttl) (h2 : t0 + ttl ≤ t2) :
    apiFetch (settleRequest st key ttl t0 (FetchOutcome.success v)) key t1 f1 =
      (FetchAction.cachedValue v, settleRequest st key ttl t0 (FetchOutcome.success v)) ∧
    (apiFetch (settleRequest st key ttl t0 (FetchOutcome.success v)) key t2 f2).1 =
      FetchAction.startRequest f2 ∧
    mget ((apiFetch (settleRequest st key ttl t0 (FetchOutcome.success v)) key t2 f2).2).cache
      key = some ⟨v, t0 + ttl⟩ := by
  have hcache : mget (settleRequest st key ttl t0 (FetchOutcome.success v)).cache key =
      some ⟨v, t0 + ttl⟩ := by
    simp [settleRequest, httl, mget_mset_self]
  have hinf : mget (settleRequest st key ttl t0 (FetchOutcome.success v)).inflight key = none :=
    mget_mdel_self st.inflight key
  refine ⟨?_, ?_, ?_⟩
  · simp only [apiFetch, hcache]
    rw [if_pos (by omega)]
  · simp only [apiFetch, hcache]
    rw [if_neg (by omega)]
    simp [apiFetchMiss, hinf]
  · simp only [apiFetch, hcache]
    rw [if_neg (by omega)]
    simp [apiFetchMiss, hinf, hcache]

/-- Witness for C2: store 42 under `"k"` at time 100 with TTL 10; a read
at time 109 returns the cached 42 without touching the state. -/
theorem apiFetch_ttl_witness :
    apiFetch (settleRequest (ApiState.mk [] [] : ApiState Nat) "k" 10 100
        (FetchOutcome.success 42)) "k" 109 1 =
      (FetchAction.cachedValue 42,
        settleRequest (ApiState.mk [] []) "k" 10 100 (FetchOutcome.success 42)) :=
  (apiFetch_ttl (ApiState.mk [] []) "k" 42 10 100 109 110 1 2 (by decide) (by decide)
    (by decide)).1

theorem mget_clearEntries {β : Type} (m : List (String × β)) (p k : String)
    (hk : strStartsWith k p = true) : mget (clearEntries m p) k = none := by
  induction m with
  | nil => rfl
  | cons e t ih =>
    obtain ⟨ke, ve⟩ := e
    by_cases he : strStartsWith ke p = true
    · simpa [clearEntries, he] using ih
    · have hek : ke ≠ k := by
        rintro rfl
        exact he hk
      simp only [clearEntries] at *
      simp only [he, if_false]
      simpa [mget, hek] using ih

/-- C3: after `clearCachePrefix p`, every cache key starting with `p` is
gone: its lookup misses, and an immediately following `apiFetch` for any
such key can never return a cached value (whatever its expiry was) — it
either joins an in-flight request or issues a fresh network call. -/
theorem clearCachePrefix_invalidate {α : Type} (st : ApiState α) (p k : String)
    (t fresh : Nat) (hk : strStartsWith k p = true) :
    mget (clearCachePrefix st p).cache k = none ∧
    ∀ v : α, (apiFetch (clearCachePrefix st p) k t fresh).1 ≠ FetchAction.cachedValue v := by
  have hnone : mget (clearCachePrefix st p).cache k = none := mget_clearEntries st.cache p k hk
  refine ⟨hnone, ?_⟩
  intro v
  cases hi : mget (clearCachePrefix st p).inflight k with
  | none => simp [apiFetch, hnone, apiFetchMiss, hi]
  | some rid => simp [apiFetch, hnone, apiFetchMiss, hi]

/-- Witness for C3: an unexpired entry under `"health:1"` is removed by
`clearCachePrefix "health:"`. -/
theorem clearCachePrefix_invalidate_witness :
    mget (clearCachePrefix
        (ApiState.mk [("health:1", CacheEntry.mk 5 1000000)] [] : ApiState Nat)
        "health:").cache "health:1" = none :=
  (clearCachePrefix_invalidate (ApiState.mk [("health:1", CacheEntry.mk 5 1000000)] [])
    "health:" "health:1" 0 0 (by decide)).1

/-- C4: settlement of the network future — success or failure, cacheable
or not — unconditionally removes the in-flight entry for its cache key, so
no settled request can leave an orphaned in-flight entry that would block
later attempts for that key. -/
theorem settleRequest_removes_inflight {α : Type} (st : ApiState α) (key : String)
    (ttl t : Nat) (out : FetchOutcome α) :
    mget (settleRequest st key ttl t out).inflight key = none :=
  mget_mdel_self st.inflight key

/-- C5: the request body classifies a settled response exactly as the
error taxonomy says — a non-2xx status rejects with the HTTP-error throw
carrying the status code and the response body truncated to 300
characters; a 2xx response that is not JSON (its `content-type` header
does not contain `application/json`) rejects with the malformed-response
throw carrying the same data; a 2xx JSON response resolves with the parsed
JSON value. The classification is a function of the single response: no
retry exists in this layer. -/
theorem classifyResponse_taxonomy {α : Type} (path : String) (r : HttpResponse α) :
    (¬(200 ≤ r.status ∧ r.status ≤ 299) →
      classifyResponse path r =
        ApiResult.httpError r.status (r.bodyText.take 300)
          ("API " ++ path ++ " failed (" ++ natDecimal r.status ++ ")")) ∧
    ((200 ≤ r.status ∧ r.status ≤ 299) →
      containsSubstr r.contentType "application/json" = false →
      classifyResponse path r =
        ApiResult.malformed r.status (r.bodyText.take 300)
          ("Non-JSON response from " ++ path)) ∧
    (∀ v, (200 ≤ r.status ∧ r.status ≤ 299) →
      containsSubstr r.contentType "application/json" = true →
      r.jsonBody = some v → classifyResponse path r = ApiResult.ok v) := by
  refine ⟨?_, ?_, ?_⟩
  · intro h
    have hok : resOk r = false := decide_eq_false h
    simp [classifyResponse, hok]
  · intro h hct
    have hok : resOk r = true := decide_eq_true h
    simp [classifyResponse, hok, hct]
  · intro v h hct hj
    have hok : resOk r = true := decide_eq_true h
    simp [classifyResponse, hok, hct, hj]

/-- Witness for C5: a 500 response with an HTML body rejects with the
HTTP-error throw carrying status 500 and the truncated body. -/
theorem classifyResponse_taxonomy_witness :
    classifyResponse "/x" (HttpResponse.mk 500 "text/html" "boom" none : HttpResponse Nat) =
      ApiResult.httpError 500 ("boom".take 300)
        ("API " ++ "/x" ++ " failed (" ++ natDecimal 500 ++ ")") :=
  (classifyResponse_taxonomy "/x" (HttpResponse.mk 500 "text/html" "boom" none)).1 (by decide)

/-- C6: for every failure of the request body (over a path whose lowercase
form contains no `'('`), `isNotFoundError` holds of the rejected error
exactly when the response status was 404; every other status — and every
malformed-response or JSON-parse failure, which can only arise from 2xx
statuses — tests false. -/
theorem isNotFoundError_iff_404 {α : Type} (path : String) (r : HttpResponse α)
    (hp : '(' ∉ (strToLower path).data) :
    resultIsNotFound (classifyResponse path r) = true ↔ r.status = 404 := by
  have hQsub : ('(' : Char) ∈ ("failed (404)").data := by decide
  cases hok : resOk r with
  | false =>
    have hcl : classifyResponse path r =
        ApiResult.httpError r.status (r.bodyText.take 300)
          ("API " ++ path ++ " failed (" ++ natDecimal r.status ++ ")") := by
      simp [classifyResponse, hok]
    have hdata : (strToLower ("API " ++ path ++ " failed (" ++ natDecimal r.status ++ ")")).data
        = ("api ".data ++ (strToLower path).data) ++
          (" failed (".data ++ (natDigits r.status ++ [')'])) := by
      have m1 : ("API ".data).map Char.toLower = "api ".data := by decide
      have m2 : ((" failed (").data).map Char.toLower = " failed (".data := by decide
      have m3 : ((natDecimal r.status).data).map Char.toLower = natDigits r.status :=
        map_toLower_digits _ (natDigits_subset r.status)
      have m4 : ((")").data).map Char.toLower = [')'] := by decide
      simp only [strToLower, String.data_append, List.map_append, m1, m2, m3, m4,
        List.append_assoc]
    rw [hcl]
    show isNotFoundError _ = true ↔ _
    rw [isNotFoundError, containsSubstr_iff, hdata]
    have hpl : '(' ∉ "api ".data ++ (strToLower path).data := by
      simp only [List.mem_append]
      rintro (h | h)
      · revert h; decide
      · exact hp h
    exact notFound_msg_iff ("api ".data ++ (strToLower path).data) r.status hpl
  | true =>
    have hst : ¬(r.status = 404) := by
      have := of_decide_eq_true hok
      omega
    cases hct : containsSubstr r.contentType "application/json" with
    | false =>
      have hcl : classifyResponse path r =
          ApiResult.malformed r.status (r.bodyText.take 300)
            ("Non-JSON response from " ++ path) := by
        simp [classifyResponse, hok, hct]
      rw [hcl]
      show isNotFoundError _ = true ↔ _
      have hfalse : isNotFoundError ("Non-JSON response from " ++ path) = false := by
        rw [isNotFoundError]
        cases hb : containsSubstr (strToLower ("Non-JSON response from " ++ path)) "failed (404)"
        · rfl
        · exfalso
          have hinf := containsSubstr_iff.mp hb
          have hparen := hinf.subset hQsub
          have hdata2 : (strToLower ("Non-JSON response from " ++ path)).data =
              ("non-json response from ".data) ++ (strToLower path).data := by
            have m1 : (("Non-JSON response from ").data).map Char.toLower =
                "non-json response from ".data := by decide
            simp only [strToLower, String.data_append, List.map_append, m1]
          rw [hdata2] at hparen
          rcases List.mem_append.mp hparen with h | h
          · revert h; decide
          · exact hp h
      simp [hfalse, hst]
    | true =>
      cases hj : r.jsonBody with
      | some v =>
        have hcl : classifyResponse path r = ApiResult.ok v := by
          simp [classifyResponse, hok, hct, hj]
        rw [hcl]
        simp [resultIsNotFound, resultMessage, hst]
      | none =>
        have hcl : classifyResponse path r = ApiResult.parseError "Unexpected token in JSON" := by
          simp [classifyResponse, hok, hct, hj]
        rw [hcl]
        have hmsg : isNotFoundError "Unexpected token in JSON" = false := by decide
        simp [resultIsNotFound, resultMessage, hmsg, hst]

/-- Witness for C6: a 404 response on a parenthesis-free path is
recognised by `isNotFoundError`. -/
theorem isNotFoundError_iff_404_witness :
    resultIsNotFound (classifyResponse "/customer/acme/health"
      (HttpResponse.mk 404 "text/html" "nope" none : HttpResponse Nat)) = true :=
  (isNotFoundError_iff_404 "/customer/acme/health"
    (HttpResponse.mk 404 "text/html" "nope" none) (by decide)).mpr rfl

/-- C7: the manual re-evaluation trigger (`ttl = 0`, cache key
`reeval:<key>:<now()>`): invocations at distinct millisecond timestamps
produce distinct cache keys; a first invocation on a fresh key starts an
actual network call; its settlement writes no cache entry (`ttl = 0`); and
a second sequential invocation afterwards again starts an actual network
call — whatever its timestamp, so sequential manual triggers are never
deduplicated against each other. -/
theorem apiFetch_start {α : Type} (st : ApiState α) (k : String) (t f : Nat)
    (hc : mget st.cache k = none) (hi : mget st.inflight k = none) :
    apiFetch st k t f =
      (FetchAction.startRequest f, { st with inflight := mset st.inflight k f }) := by
  simp [apiFetch, hc, apiFetchMiss, hi]

theorem triggerReeval_isolation {α : Type} (st : ApiState α) (key : String)
    (t1 t2 ts f1 f2 : Nat) (out : FetchOutcome α)
    (h1c : mget st.cache (reevalKey key t1) = none)
    (h1i : mget st.inflight (reevalKey key t1) = none)
    (h2c : mget st.cache (reevalKey key t2) = none)
    (h2i : mget st.inflight (reevalKey key t2) = none) :
    (t1 ≠ t2 → reevalKey key t1 ≠ reevalKey key t2) ∧
    (apiFetch st (reevalKey key t1) t1 f1).1 = FetchAction.startRequest f1 ∧
    (settleRequest (apiFetch st (reevalKey key t1) t1 f1).2 (reevalKey key t1) 0 ts out).cache
      = st.cache ∧
    (apiFetch (settleRequest (apiFetch st (reevalKey key t1) t1 f1).2 (reevalKey key t1) 0 ts out)
      (reevalKey key t2) t2 f2).1 = FetchAction.startRequest f2 := by
  have hstep : apiFetch st (reevalKey key t1) t1 f1 =
      (FetchAction.startRequest f1,
        { st with inflight := mset st.inflight (reevalKey key t1) f1 }) := by
    simp [apiFetch, h1c, apiFetchMiss, h1i]
  have hcacheS :
      (settleRequest (apiFetch st (reevalKey key t1) t1 f1).2 (reevalKey key t1) 0 ts out).cache
        = st.cache := by
    rw [hstep]
    cases out with
    | success v => simp [settleRequest]
    | failure => simp [settleRequest]
  refine ⟨?_, ?_, hcacheS, ?_⟩
  · intro hne heq
    apply hne
    have hd := congrArg String.data heq
    simp only [reevalKey, String.data_append, List.append_assoc] at hd
    have e1 := List.append_cancel_left hd
    have e2 := List.append_cancel_left e1
    have e3 := List.append_cancel_left e2
    exact natDigits_injective e3
  · rw [hstep]
  · have hinfS :
        mget (settleRequest (apiFetch st (reevalKey key t1) t1 f1).2
          (reevalKey key t1) 0 ts out).inflight (reevalKey key t2) = none := by
      rw [hstep]
      show mget (mdel (mset st.inflight (reevalKey key t1) f1) (reevalKey key t1))
        (reevalKey key t2) = none
      by_cases hkk : reevalKey key t1 = reevalKey key t2
      · rw [← hkk]
        exact mget_mdel_self _ _
      · rw [mget_mdel_ne _ hkk, mget_mset_ne _ _ hkk]
        exact h2i
    have hcl : mget (settleRequest (apiFetch st (reevalKey key t1) t1 f1).2
        (reevalKey key t1) 0 ts out).cache (reevalKey key t2) = none := by
      rw [hcacheS]
      exact h2c
    rw [apiFetch_start _ _ _ _ hcl hinfS]

/-- Witness for C7: in the empty state, triggers at timestamps 0 and 1
give distinct cache keys. -/
theorem triggerReeval_isolation_witness :
    reevalKey "c" 0 ≠ reevalKey "c" 1 :=
  (triggerReeval_isolation (ApiState.mk [] [] : ApiState Nat) "c" 0 1 5 1 2
    FetchOutcome.failure rfl rfl rfl rfl).1 (by decide)

/-- Counterexample to C8 as stated: a device whose raw status is
`"Rebooting"` (a non-online status) with a last-seen timestamp present
gets the no-cause placeholder `"—"`, not the network-drop label — in the
code only the status `"disconnected"` gets the network-drop label. -/
theorem rootCause_claim_counterexample :
    (normalizeDeviceRow { connectionStatus := some "Rebooting", lastSeen := some 1 }
        1000000).status = "rebooting" ∧
    (normalizeDeviceRow { connectionStatus := some "Rebooting", lastSeen := some 1 }
        1000000).status ≠ "online" ∧
    (normalizeDeviceRow { connectionStatus := some "Rebooting", lastSeen := some 1 }
        1000000).lastSeen = some 1 ∧
    (normalizeDeviceRow { connectionStatus := some "Rebooting", lastSeen := some 1 }
        1000000).rootCause = "—" ∧
    "—" ≠ "LAN / network drop likely" := by
  refine ⟨?_, ?_, ?_, ?_, ?_⟩ <;> decide

/-- C8 (amended): the root-cause heuristic as implemented — absent (or
JS-falsy) last-seen → registration-drift label; status `"offline"` with
age strictly over 48 hours → power/site-outage label; `"offline"`
otherwise → intermittent label; status exactly `"disconnected"` →
network-drop label; every other status (including `"online"` and
pass-through statuses) → the no-cause placeholder `"—"`. Inside
`normalizeDeviceRow` the root cause is this heuristic applied to the
normalized status and coalesced last-seen, and the normalized status is
never `"disconnected"` (such raw statuses normalize to `"offline"`), so
the network-drop label is unreachable from a normalized row. -/
theorem guessDeviceRootCause_spec (status : String) (ts nowMs : Int) (hts : ts ≠ 0) :
    guessDeviceRootCause status none nowMs = "Cloud inventory / registration drift" ∧
    guessDeviceRootCause status (some 0) nowMs = "Cloud inventory / registration drift" ∧
    (status = "offline" →
      (((nowMs - ts : Int) : ℚ) / 3600000 > 48 →
        guessDeviceRootCause status (some ts) nowMs = "Power / site outage likely") ∧
      (¬(((nowMs - ts : Int) : ℚ) / 3600000 > 48) →
        guessDeviceRootCause status (some ts) nowMs = "Network / power intermittent")) ∧
    (status = "disconnected" →
      guessDeviceRootCause status (some ts) nowMs = "LAN / network drop likely") ∧
    (status ≠ "offline" → status ≠ "disconnected" →
      guessDeviceRootCause status (some ts) nowMs = "—") ∧
    (∀ d : DeviceRecord, (normalizeDeviceRow d nowMs).rootCause =
      guessDeviceRootCause ((normalizeDeviceRow d nowMs).status) (lastSeenOf d) nowMs) ∧
    (∀ d : DeviceRecord, (normalizeDeviceRow d nowMs).status ≠ "disconnected") := by
  refine ⟨rfl, by simp [guessDeviceRootCause], ?_, ?_, ?_, ?_, ?_⟩
  · rintro rfl
    constructor
    · intro hh
      simp only [guessDeviceRootCause, hts, if_false]
      rw [if_pos hh]
      simp
    · intro hh
      simp only [guessDeviceRootCause, hts, if_false]
      rw [if_neg hh]
      simp
  · rintro rfl
    simp [guessDeviceRootCause, hts]
  · intro h1 h2
    simp [guessDeviceRootCause, hts, h1, h2]
  · intro d
    rfl
  · intro d heq
    have hns : (normalizeDeviceRow d nowMs).status = normalizeStatus (statusRawOf d) := rfl
    rw [hns] at heq
    revert heq
    rw [normalizeStatus]
    by_cases c1 : (containsSubstr (statusRawOf d) "offline"
        || containsSubstr (statusRawOf d) "disconnected") = true
    · rw [if_pos c1]
      decide
    · rw [if_neg c1]
      by_cases c2 : (containsSubstr (statusRawOf d) "online"
          || containsSubstr (statusRawOf d) "connected") = true
      · rw [if_pos c2]
        decide
      · rw [if_neg c2]
        by_cases c3 : statusRawOf d = ""
        · rw [if_pos c3]
          decide
        · rw [if_neg c3]
          intro heq
          apply c1
          rw [heq]
          have : containsSubstr "disconnected" "disconnected" = true :=
            containsSubstr_iff.mpr (List.infix_refl _)
          simp [this]

/-- Witness for C8 (amended) — the spec's scenario: an offline device last
seen 72 hours ago gets the power/site-outage label. -/
theorem guessDeviceRootCause_spec_witness :
    guessDeviceRootCause "offline" (some 1) (1 + 72 * 3600000) = "Power / site outage likely" :=
  ((guessDeviceRootCause_spec "offline" 1 (1 + 72 * 3600000) (by decide)).2.2.1 rfl).1
    (by norm_num)

/-- C9: status normalization — the lowercased raw status containing
`offline` or `disconnected` normalizes to `"offline"` (this branch wins,
so `"disconnected"`, which also contains `connected`, is offline);
otherwise containing `online` or `connected` normalizes to `"online"`;
otherwise a non-empty raw status passes through verbatim; an absent or
empty status becomes `"unknown"`. A record carrying only a `deviceName`
gets status `"unknown"` and the registration-drift root-cause label. -/
theorem normalizeDeviceRow_status_spec (d : DeviceRecord) (nowMs : Int) :
    ((containsSubstr (statusRawOf d) "offline" = true ∨
        containsSubstr (statusRawOf d) "disconnected" = true) →
      (normalizeDeviceRow d nowMs).status = "offline") ∧
    (containsSubstr (statusRawOf d) "offline" = false →
      containsSubstr (statusRawOf d) "disconnected" = false →
      (containsSubstr (statusRawOf d) "online" = true ∨
        containsSubstr (statusRawOf d) "connected" = true) →
      (normalizeDeviceRow d nowMs).status = "online") ∧
    (containsSubstr (statusRawOf d) "offline" = false →
      containsSubstr (statusRawOf d) "disconnected" = false →
      containsSubstr (statusRawOf d) "online" = false →
      containsSubstr (statusRawOf d) "connected" = false →
      statusRawOf d ≠ "" → (normalizeDeviceRow d nowMs).status = statusRawOf d) ∧
    (statusRawOf d = "" → (normalizeDeviceRow d nowMs).status = "unknown") ∧
    ((normalizeDeviceRow { deviceName := some "SX80" } nowMs).status = "unknown" ∧
      (normalizeDeviceRow { deviceName := some "SX80" } nowMs).rootCause =
        "Cloud inventory / registration drift") := by
  have hns : (normalizeDeviceRow d nowMs).status = normalizeStatus (statusRawOf d) := rfl
  refine ⟨?_, ?_, ?_, ?_, rfl, rfl⟩
  · intro h
    rw [hns, normalizeStatus, if_pos]
    rcases h with h | h <;> simp [h]
  · intro h1 h2 h
    rw [hns, normalizeStatus, if_neg (by simp [h1, h2]), if_pos]
    rcases h with h | h <;> simp [h]
  · intro h1 h2 h3 h4 h5
    rw [hns, normalizeStatus, if_neg (by simp [h1, h2]), if_neg (by simp [h3, h4]), if_neg h5]
  · intro h
    rw [hns, h]
    decide

/-- Witness for C9: raw status `"Disconnected"` normalizes to
`"offline"`. -/
theorem normalizeDeviceRow_status_spec_witness :
    (normalizeDeviceRow { connectionStatus := some "Disconnected" } 0).status = "offline" :=
  (normalizeDeviceRow_status_spec { connectionStatus := some "Disconnected" } 0).1
    (Or.inr (by decide))

theorem replaceAllStr_data (s : String) (pat : Char) (rep : String) :
    (replaceAllStr s pat rep).data = replaceAllCh pat rep.data s.data := rfl

/-- C10: `escapeHtml` output never contains `<`, `>`, `"` or `'` (each is
replaced by its HTML entity, with `&` escaped first so entity ampersands
are not re-escaped), and every JS-falsy input — `null`, `undefined`, `0`,
`false`, `""` — yields the empty string. -/
theorem escapeHtml_safe :
    (∀ v : JSVal,
      '<' ∉ (escapeHtml v).data ∧ '>' ∉ (escapeHtml v).data ∧
      '"' ∉ (escapeHtml v).data ∧ '\'' ∉ (escapeHtml v).data) ∧
    escapeHtml JSVal.vNull = "" ∧
    escapeHtml JSVal.vUndefined = "" ∧
    escapeHtml (JSVal.vNum 0) = "" ∧
    escapeHtml (JSVal.vBool false) = "" ∧
    escapeHtml (JSVal.vStr "") = "" ∧
    escapeHtml (JSVal.vStr "&<>\"'") = "&amp;&lt;&gt;&quot;&#039;" := by
  refine ⟨?_, rfl, rfl, rfl, rfl, rfl, by decide⟩
  intro v
  have base : ∀ s : List Char,
      '<' ∉ replaceAllCh '\'' "&#039;".data (replaceAllCh '"' "&quot;".data
        (replaceAllCh '>' "&gt;".data (replaceAllCh '<' "&lt;".data s))) ∧
      '>' ∉ replaceAllCh '\'' "&#039;".data (replaceAllCh '"' "&quot;".data
        (replaceAllCh '>' "&gt;".data (replaceAllCh '<' "&lt;".data s))) ∧
      '"' ∉ replaceAllCh '\'' "&#039;".data (replaceAllCh '"' "&quot;".data
        (replaceAllCh '>' "&gt;".data (replaceAllCh '<' "&lt;".data s))) ∧
      '\'' ∉ replaceAllCh '\'' "&#039;".data (replaceAllCh '"' "&quot;".data
        (replaceAllCh '>' "&gt;".data (replaceAllCh '<' "&lt;".data s))) := by
    intro s
    refine ⟨?_, ?_, ?_, ?_⟩
    · exact replaceAllCh_preserves_not_mem _ _ _ (by decide) _
        (replaceAllCh_preserves_not_mem _ _ _ (by decide) _
          (replaceAllCh_preserves_not_mem _ _ _ (by decide) _
            (replaceAllCh_not_mem_self _ _ (by decide) _)))
    · exact replaceAllCh_preserves_not_mem _ _ _ (by decide) _
        (replaceAllCh_preserves_not_mem _ _ _ (by decide) _
          (replaceAllCh_not_mem_self _ _ (by decide) _))
    · exact replaceAllCh_preserves_not_mem _ _ _ (by decide) _
        (replaceAllCh_not_mem_self _ _ (by decide) _)
    · exact replaceAllCh_not_mem_self _ _ (by decide) _
  exact base _
